import Mathlib

/-!
Verification development for a collection of standalone VASP post-processing
scripts (band structure, DOS, convergence sweeps).  Each Python script is
shallowly embedded below: file contents become `List String` (one entry per
line, without the trailing newline, which the scripts always strip or
tokenize away), a possibly-missing file becomes `Option (List String)`,
floating point numbers become `Rat`, and exceptions that a script lets
escape become `Except Unit`.  The Python string builtins used by the
scripts (`strip`, `split`, `splitlines`, `replace`, `in`, `float`) are
modelled by structurally recursive functions on the character list of a
string.
-/

namespace VaspScripts

/-! ### Python string builtins -/

/-- `str.strip()` with no arguments: remove leading and trailing
whitespace. -/
def pyStripData (cs : List Char) : List Char :=
  ((cs.dropWhile Char.isWhitespace).reverse.dropWhile Char.isWhitespace).reverse

/-- Whether a line is blank in the sense of Python's `not line.strip()`. -/
def isBlank (s : String) : Bool :=
  (pyStripData s.data).isEmpty

/-- Python's substring test `pat in s`. -/
def containsSub (s pat : String) : Bool :=
  decide (pat.data <:+: s.data)

/-- `str.split()` with no arguments, on character lists: split on runs of
whitespace, dropping empty tokens. -/
def tokensData : List Char → List (List Char)
  | [] => []
  | c :: rest =>
    let ts := tokensData rest
    if c.isWhitespace then ts
    else
      match rest with
      | [] => [[c]]
      | d :: _ =>
        if d.isWhitespace then [c] :: ts
        else
          match ts with
          | t :: ts' => (c :: t) :: ts'
          | [] => [[c]]

/-- `str.split()` of a line, as strings. -/
def pyTokens (s : String) : List String :=
  (tokensData s.data).map List.asString

/-- Split on every occurrence of a separator character, keeping empty
pieces (the behaviour of `str.split(sep)`). -/
def splitOnData (sep : Char) : List Char → List (List Char)
  | [] => [[]]
  | c :: rest =>
    let ts := splitOnData sep rest
    if c = sep then [] :: ts
    else
      match ts with
      | t :: ts' => (c :: t) :: ts'
      | [] => [[c]]

/-- `str.splitlines()` for the newline-only case that arises here (the
content has already been stripped, so there is no trailing newline, and an
empty string yields an empty list). -/
def pySplitlines (cs : List Char) : List (List Char) :=
  if cs.isEmpty then [] else splitOnData '\n' cs

/-- Numeric value of a digit string (most significant digit first). -/
def digitsVal (ds : List Char) : Nat :=
  ds.foldl (fun a c => a * 10 + (c.toNat - 48)) 0

/-- Python's `float()` builtin on ordinary decimal literals:
optional sign, integer part and/or fractional part (at least one digit in
the mantissa), optional exponent.  Returns `none` where `float()` raises
`ValueError`.  The special forms `inf`/`nan` and underscore separators are
not modelled; no input in this development uses them. -/
def pyFloatCore (cs : List Char) : Option Rat :=
  let sgnRest : Rat × List Char :=
    match cs with
    | '+' :: r => (1, r)
    | '-' :: r => (-1, r)
    | _ => (1, cs)
  let sgn := sgnRest.1
  let cs1 := sgnRest.2
  let ip := cs1.takeWhile Char.isDigit
  let cs2 := cs1.drop ip.length
  let fpRest : List Char × List Char :=
    match cs2 with
    | '.' :: r => (r.takeWhile Char.isDigit, r.drop (r.takeWhile Char.isDigit).length)
    | _ => ([], cs2)
  let fp := fpRest.1
  let cs3 := fpRest.2
  if ip.isEmpty && fp.isEmpty then none
  else
    let mant : Rat := sgn * ((digitsVal ip : Rat) + (digitsVal fp : Rat) / (10 ^ fp.length))
    match cs3 with
    | [] => some mant
    | e :: r4 =>
      if e = 'e' ∨ e = 'E' then
        let esgnRest : Bool × List Char :=
          match r4 with
          | '+' :: r => (true, r)
          | '-' :: r => (false, r)
          | _ => (true, r4)
        let eds := esgnRest.2.takeWhile Char.isDigit
        if eds.isEmpty || ¬(esgnRest.2.drop eds.length).isEmpty then none
        else if esgnRest.1 then some (mant * 10 ^ digitsVal eds)
        else some (mant / 10 ^ digitsVal eds)
      else none

/-- `float(s)` for a whitespace-free token `s` (all call sites pass tokens
produced by `split`/`strip`, which carry no surrounding whitespace). -/
def pyFloat (s : String) : Option Rat :=
  pyFloatCore s.data

/-! ### `BAND/Dirac.py` (and the identical copy in `BAND/Function.py`):
`read_klabels` and the analysis pipeline of `analyze_dirac_cone`. -/

/-- Contribution of one KLABELS data line: `none` when the line is skipped
(blank, fewer than two tokens, or unparseable coordinate), otherwise the
`(coordinate, label)` pair, with the label's backslashes removed
(`parts[0].replace('\\', '')`). -/
def lineEntry (l : String) : Option (Rat × String) :=
  if isBlank l then none
  else
    let parts := tokensData l.data
    if 2 ≤ parts.length then
      match pyFloatCore (parts.getLastD []) with
      | some c => some (c, ((parts.headD []).filter (fun ch => ch ≠ '\\')).asString)
      | none => none
    else none

/-- The data-line loop of `read_klabels`: collect coordinates and labels in
file order, silently skipping lines that fail. -/
def processLines (ls : List String) : List Rat × List String :=
  ((ls.filterMap lineEntry).map Prod.fst, (ls.filterMap lineEntry).map Prod.snd)

/-- `lines[0]` contains one of the header markers. -/
def hasHeaderMarker (s : String) : Bool :=
  containsSub s "K-Label" || containsSub s "Coordinate"

/-- `read_klabels`: `none` models a missing file (`os.path.exists` false),
`some lines` the file's lines.  Returns `(sym_points, labels)`. -/
def read_klabels : Option (List String) → List Rat × List String
  | none => ([], [])
  | some lines =>
    let start0 : Nat :=
      match lines.head? with
      | some l0 => if hasHeaderMarker l0 then 1 else 0
      | none => 0
    let start1 : Nat :=
      match lines.get? start0 with
      | some l => if isBlank l then start0 + 1 else start0
      | none => start0
    processLines (lines.drop start1)

/-- Recognized K-point labels in `analyze_dirac_cone`. -/
def kLabelNames : List String := ["k", "k$", "k\\", "k1", "k2"]

/-- `label.lower()`. -/
def pyLower (s : String) : String :=
  (s.data.map Char.toLower).asString

/-- Target-position selection in `analyze_dirac_cone`: midpoint fallback for
an empty `sym_points`, else the coordinate of the first recognized K label
(or the middle entry when no label matches).  List indexing uses `getD 0`;
the script only ever indexes within bounds because `sym_points` and
`labels` are built in lockstep and `k_points` is nonempty. -/
def kPositionOf (symPoints : List Rat) (labels : List String) (kpts : List Rat) : Rat :=
  if symPoints.isEmpty then (kpts.headD 0 + kpts.getLastD 0) / 2
  else
    let kIndex : Nat :=
      match labels.findIdx? (fun lab => kLabelNames.contains (pyLower lab)) with
      | some i => i
      | none => symPoints.length / 2
    symPoints.getD kIndex 0

/-- `np.argmin(np.abs(k_points - k_position))`: first index attaining the
minimal distance (`np.argmin` returns the first minimum). -/
def nearestIndexAux (target : Rat) : List Rat → Nat → Rat → Nat → Nat
  | [], bestIdx, _, _ => bestIdx
  | k :: rest, bestIdx, bestVal, cur =>
    if |k - target| < bestVal then nearestIndexAux target rest cur |k - target| (cur + 1)
    else nearestIndexAux target rest bestIdx bestVal (cur + 1)

/-- Index of the k-point nearest to `target` (0 on an empty list, where the
script would have failed earlier while loading the band file). -/
def nearestIndex (kpts : List Rat) (target : Rat) : Nat :=
  match kpts with
  | [] => 0
  | k :: rest => nearestIndexAux target rest 0 |k - target| 1

/-- `np.argsort(np.abs(band_energies_at_k - 0))`: band indices ordered by
absolute distance of the band's energy (at the chosen sample) from the
Fermi reference 0.  `np.argsort`'s order among ties is unspecified; the
theorems below do not depend on the tie order, so a stable sort stands in. -/
def argsortAbs (es : List Rat) : List Nat :=
  List.insertionSort (fun i j => |es.getD i 0| ≤ |es.getD j 0|) (List.range es.length)

/-- `sorted_bands[:2]`: the two bands nearest the Fermi reference. -/
def diracBands (es : List Rat) : List Nat :=
  (argsortAbs es).take 2

/-- Full selection pipeline of `analyze_dirac_cone`: the Dirac-cone bands
for a band table `energies` (one row per path sample) and a target path
position.  `energies.getD i []` is `energies[k_index_band, :]`. -/
def diracBandsOf (kpts : List Rat) (energies : List (List Rat)) (target : Rat) : List Nat :=
  diracBands (energies.getD (nearestIndex kpts target) [])

/-- `start_idx = max(0, k_index_band - window)` with `window = 50`
(Python ints, hence the signed subtraction). -/
def windowStart (i : Nat) : Nat :=
  (max 0 ((i : Int) - 50)).toNat

/-- `end_idx = min(len(k_points), k_index_band + window)`. -/
def windowEnd (n i : Nat) : Nat :=
  (min (n : Int) ((i : Int) + 50)).toNat

/-- The slice `x[start_idx:end_idx]` around sample `i` (Python slice
semantics: drop `start`, then keep `end - start` elements). -/
def sliceWindow (l : List α) (i : Nat) : List α :=
  (l.drop (windowStart i)).take (windowEnd l.length i - windowStart i)

/-! ### `DOS/DOS.py`: `extract_fermi_energy` and the module-level PDOS
column selection. -/

/-- One attempt of `re` at matching `[-+]?\d*\.\d+` at the current position:
optional sign, greedy digits, a literal point, then at least one digit.
(No backtracking case survives for this pattern: giving digits back from
`\d*` can never make the mandatory `\.` match.) -/
def matchSignedDecimal (cs : List Char) : Option (List Char) :=
  let signRest : List Char × List Char :=
    match cs with
    | c :: r => if c = '+' ∨ c = '-' then ([c], r) else ([], cs)
    | [] => ([], cs)
  let ds := signRest.2.takeWhile Char.isDigit
  match signRest.2.drop ds.length with
  | '.' :: r3 =>
    let fs := r3.takeWhile Char.isDigit
    if fs.isEmpty then none else some (signRest.1 ++ ds ++ '.' :: fs)
  | _ => none

/-- One attempt at the second alternative `\d+`. -/
def matchDigits (cs : List Char) : Option (List Char) :=
  let ds := cs.takeWhile Char.isDigit
  if ds.isEmpty then none else some ds

/-- Leftmost match of `re.findall(r'[-+]?\d*\.\d+|\d+', content)`: at each
position try the first alternative, then the second, then advance one
character. -/
def firstMatchAux : List Char → Option (List Char)
  | [] => none
  | c :: rest =>
    match matchSignedDecimal (c :: rest) with
    | some m => some m
    | none =>
      match matchDigits (c :: rest) with
      | some m => some m
      | none => firstMatchAux rest

/-- `matches[0]` of the regex scan. -/
def firstNumericMatch (content : List Char) : Option (List Char) :=
  firstMatchAux content

/-- Stage three and four of `extract_fermi_energy`: `float(lines[-1])` of
the split-lines, else the default `0.0`. -/
def fermiLastLineStage (content : List Char) : Rat :=
  match (pySplitlines content).getLast? with
  | some ll =>
    match pyFloatCore ll with
    | some v => v
    | none => 0
  | none => 0

/-- `extract_fermi_energy`: `none` models a missing file.  The cascade:
direct `float` of the stripped content; else `float` of the first regex
match; else `float` of the last line; else `0.0`.  Total — the Python
function catches every `ValueError` it can encounter. -/
def extract_fermi_energy : Option String → Rat
  | none => 0
  | some raw =>
    let content := pyStripData raw.data
    match pyFloatCore content with
    | some v => v
    | none =>
      match firstNumericMatch content with
      | some m =>
        match pyFloatCore m with
        | some v => v
        | none => fermiLastLineStage content
      | none => fermiLastLineStage content

/-- Spec-side restatement of the parsing preference order of
`extract_fermi_energy` (spec §6: "direct numeric parse, else first numeric
substring found, else last line, else a default of 0.0", with 0.0 also for
a missing file): each stage is an optional value and the first available
stage wins.  To be compared with the source-translated
`extract_fermi_energy` above. -/
def fermiCascadeSpec : Option String → Rat
  | none => 0
  | some raw =>
    let content := pyStripData raw.data
    match pyFloatCore content with
    | some v => v
    | none =>
      match (firstNumericMatch content).bind pyFloatCore with
      | some v => v
      | none =>
        match (pySplitlines content).getLast?.bind pyFloatCore with
        | some v => v
        | none => 0

/-- Result of the module-level PDOS column selection: the four channel
arrays (under the variable names of the script) and whether the diagnostic
for an unrecognized layout was printed. -/
structure PdosChannels where
  s_dos : List Rat
  px_dos : List Rat
  py_dos : List Rat
  pz_dos : List Rat
  diagnostic : Bool
  deriving Repr, DecidableEq

/-- `pdos_data[:, j]` for a table given as a list of rows. -/
def column (t : List (List Rat)) (j : Nat) : List Rat :=
  t.map (fun r => r.getD j 0)

/-- `np.zeros_like(pdos_energy)`: one zero per row of the table. -/
def zerosLike (t : List (List Rat)) : List Rat :=
  t.map (fun _ => 0)

/-- The column-selection branch of `DOS.py` (`pdos_data.shape[1]` is
`ncols`): at least 8 columns selects columns 1,3,5,7; at least 5 selects
columns 1,2,3,4; otherwise four zero-filled channels and a printed
diagnostic. -/
def selectPdos (ncols : Nat) (t : List (List Rat)) : PdosChannels :=
  if 8 ≤ ncols then
    ⟨column t 1, column t 3, column t 5, column t 7, false⟩
  else if 5 ≤ ncols then
    ⟨column t 1, column t 2, column t 3, column t 4, false⟩
  else
    ⟨zerosLike t, zerosLike t, zerosLike t, zerosLike t, true⟩

/-! ### `Optimization_ENCUT/ENCUT_TEST.py`: energy extraction and the
convergence scan of `analyze_encut_convergence`. -/

/-- A float stored in the `energies` list of the ENCUT sweep: a number, or
the `np.nan` appended for a missing OUTCAR. -/
inductive EnergyVal where
  | num (q : Rat)
  | nan
  deriving Repr, DecidableEq

/-- The TOTEN marker line searched for in OUTCAR files. -/
def totenMarker : String := "free  energy   TOTEN"

/-- `extract_energy_from_outcar` of `ENCUT_TEST.py`: scan the lines for the
marker, on the first hit return `float(parts[4])`; with no hit the initial
`energy = None` is returned.  `Except.error` models the unhandled
`IndexError`/`ValueError` when the marker line is malformed. -/
def extract_energy_from_outcar (lines : List String) : Except Unit (Option Rat) :=
  match lines.find? (fun l => containsSub l totenMarker) with
  | none => Except.ok none
  | some l =>
    match (pyTokens l).get? 4 with
    | none => Except.error ()
    | some t =>
      match pyFloat t with
      | none => Except.error ()
      | some v => Except.ok (some v)

/-- The f-string `f"{energy:.6f}"` applied to a possibly-`None` energy:
formatting `None` with a float format spec raises `TypeError`. -/
def formatEnergyPrint : Option Rat → Except Unit Unit
  | none => Except.error ()
  | some _ => Except.ok ()

/-- One iteration of the per-ENCUT loop in `analyze_encut_convergence`:
`none` is a missing `Encut_<v>/OUTCAR` (append `np.nan`), `some lines` an
existing one (extract, then print — which is where a `None` energy
raises). -/
def encutStep : Option (List String) → Except Unit EnergyVal
  | none => Except.ok EnergyVal.nan
  | some lines => do
    let e ← extract_energy_from_outcar lines
    let _ ← formatEnergyPrint e
    pure (match e with
          | some v => EnergyVal.num v
          | none => EnergyVal.nan)

/-- The whole extraction loop: an uncaught exception in one iteration
terminates the sweep. -/
def encutSweep (files : List (Option (List String))) : Except Unit (List EnergyVal) :=
  files.mapM encutStep

/-- `diff < 0.001` for one adjacent pair of the energies list; with IEEE
semantics any comparison against a NaN difference is false. -/
def encutDiffBelow (a b : EnergyVal) : Bool :=
  match a, b with
  | EnergyVal.num x, EnergyVal.num y => |y - x| < 1 / 1000
  | _, _ => false

/-- Index of the first adjacent difference below the threshold, scanning
`np.abs(np.diff(energies))` from the front. -/
def firstBelowIdx : List (EnergyVal × EnergyVal) → Option Nat
  | [] => none
  | p :: ps =>
    if encutDiffBelow p.1 p.2 then some 0
    else (firstBelowIdx ps).map (· + 1)

/-- `convergence_index` of `analyze_encut_convergence`: `i + 1` for the
first `i` with `energy_diffs[i] < 0.001`, else `None`. -/
def convergenceIndex (energies : List EnergyVal) : Option Nat :=
  (firstBelowIdx (energies.zip energies.tail)).map (· + 1)

/-- `encut_values[convergence_index]`, the parameter value reported as the
convergence point (`none` when the scan found no point). -/
def convergedParameter (values : List Nat) (energies : List EnergyVal) : Option Nat :=
  (convergenceIndex energies).map (fun i => values.getD i 0)

/-! ### `Optimization_KPOINTS/KPOINTS_TEST.py`: the convergence analysis of
`plot_kpoints_convergence`, from `sorted_energies` down.  Entries of
`results` are valid `(kpoints, energy)` pairs, so energies are plain
numbers here. -/

/-- `energy_differences`: absolute differences against the energy at the
largest parameter value (`ref_energy = sorted_energies[-1]`). -/
def energyDifferences (sortedEnergies : List Rat) : List Rat :=
  sortedEnergies.map (fun e => |e - sortedEnergies.getLastD 0|)

/-- The convergence search of `plot_kpoints_convergence`: index of the
first sorted parameter whose difference to the reference is below the
threshold `0.001`. -/
def kpointsConvergedIdx (sortedEnergies : List Rat) : Option Nat :=
  (energyDifferences sortedEnergies).findIdx? (fun d => d < 1 / 1000)

/-! ## Helper lemmas -/

/-- A KLABELS line whose last token does not parse as a float contributes
nothing. -/
theorem lineEntry_none_of_unparseable {l : String} {tok : List Char}
    (h1 : (tokensData l.data).getLast? = some tok) (h2 : pyFloatCore tok = none) :
    lineEntry l = none := by
  unfold lineEntry
  by_cases hb : isBlank l
  · simp [hb]
  · simp only [hb, if_false, Bool.false_eq_true]
    by_cases hlen : 2 ≤ (tokensData l.data).length
    · simp [hlen, h1, h2]
    · simp [hlen]

/-- Skipped lines drop out of the data-line loop. -/
theorem processLines_middle {l : String} (hl : lineEntry l = none)
    (xs ys : List String) :
    processLines (xs ++ l :: ys) = processLines (xs ++ ys) := by
  simp [processLines, List.filterMap_append, List.filterMap_cons, hl]

/-! ## Claims -/

/-- C2: the projected-DOS column selection branches only on the column
count: 9 columns selects the spin-resolved-pair layout (columns 1,3,5,7
for `s_dos`,`px_dos`,`py_dos`,`pz_dos`), 5 columns the non-spin layout
(columns 1,2,3,4), and 3 columns yields four zero-filled channels of the
same length as the energy column plus a printed diagnostic — without
raising (`selectPdos` is total). -/
theorem pdos_column_layout (t : List (List Rat)) :
    selectPdos 9 t = ⟨column t 1, column t 3, column t 5, column t 7, false⟩ ∧
    selectPdos 5 t = ⟨column t 1, column t 2, column t 3, column t 4, false⟩ ∧
    selectPdos 3 t = ⟨zerosLike t, zerosLike t, zerosLike t, zerosLike t, true⟩ ∧
    (zerosLike t).length = (column t 0).length ∧
    ∀ x ∈ zerosLike t, x = 0 := by
  refine ⟨?_, ?_, ?_, ?_, ?_⟩
  · simp [selectPdos]
  · simp [selectPdos]
  · simp [selectPdos]
  · simp [zerosLike, column]
  · intro x hx
    simp only [zerosLike, List.mem_map] at hx
    obtain ⟨a, _, rfl⟩ := hx
    rfl

/-- Witness for C2 at a one-row table. -/
theorem pdos_column_layout_witness :
    selectPdos 9 [[0, 1, 2, 3, 4, 5, 6, 7, 8]] =
      ⟨column [[0, 1, 2, 3, 4, 5, 6, 7, 8]] 1, column [[0, 1, 2, 3, 4, 5, 6, 7, 8]] 3,
       column [[0, 1, 2, 3, 4, 5, 6, 7, 8]] 5, column [[0, 1, 2, 3, 4, 5, 6, 7, 8]] 7,
       false⟩ ∧
    (0 : Rat) = 0 :=
  ⟨(pdos_column_layout [[0, 1, 2, 3, 4, 5, 6, 7, 8]]).1,
   (pdos_column_layout [[0, 1, 2, 3, 4, 5, 6, 7, 8]]).2.2.2.2 0 (by simp [zerosLike])⟩

/-- C3: for the label file with header "K-Label Coordinate" and data lines
"Gamma 0.0", "K 1.5", "M 2.0", `read_klabels` skips the header, takes the
first token of each line as label (backslashes removed) and the last token
as coordinate, giving coordinates `[0.0, 1.5, 2.0]` and labels
`["Gamma", "K", "M"]` in file order. -/
theorem klabels_header_example :
    read_klabels (some ["K-Label Coordinate", "Gamma 0.0", "K 1.5", "M 2.0"]) =
      ([0, 3/2, 2], ["Gamma", "K", "M"]) := by
  simp +decide [read_klabels, processLines, lineEntry, isBlank, pyStripData,
    tokensData, pyFloatCore, digitsVal, hasHeaderMarker, containsSub]
  norm_num

/-- C5: in the KPOINTS convergence scan the differences are taken against
the energy at the largest parameter, so the last difference is exactly
zero — below the `0.001` threshold — and whenever at least one valid
result exists, a convergence point is declared: the no-convergence branch
is unreachable. -/
theorem kpoints_convergence_always_declared (es : List Rat) (h : es ≠ []) :
    (energyDifferences es).getLast? = some 0 ∧ kpointsConvergedIdx es ≠ none := by
  have hlast : es.getLast? = some (es.getLast h) := List.getLast?_eq_getLast es h
  have hD : es.getLastD 0 = es.getLast h := by
    rw [List.getLastD_eq_getLast?, hlast, Option.getD_some]
  have hdiff : (energyDifferences es).getLast? = some 0 := by
    rw [energyDifferences, List.getLast?_map, hlast, Option.map_some', hD, sub_self, abs_zero]
  refine ⟨hdiff, ?_⟩
  intro hnone
  rw [kpointsConvergedIdx, List.findIdx?_eq_none_iff] at hnone
  have h0mem : (0 : Rat) ∈ energyDifferences es :=
    List.mem_of_getLast?_eq_some hdiff
  have h0 := hnone 0 h0mem
  simp only [decide_eq_false_iff_not] at h0
  exact h0 (by norm_num)

/-- Witness for C5 at the one-element list `[1]`. -/
theorem kpoints_convergence_always_declared_witness :
    (energyDifferences [1]).getLast? = some 0 ∧ kpointsConvergedIdx [1] ≠ none :=
  kpoints_convergence_always_declared [1] (by simp)

/-- C7: an empty or missing label file makes `read_klabels` return two
empty lists rather than raising, and the caller `analyze_dirac_cone` then
falls back to the k-path midpoint `(k_points[0] + k_points[-1]) / 2` as
the target position. -/
theorem klabels_empty_fallback :
    read_klabels none = ([], []) ∧
    read_klabels (some []) = ([], []) ∧
    ∀ (labels : List String) (k0 : Rat) (rest : List Rat),
      kPositionOf [] labels (k0 :: rest) = (k0 + (k0 :: rest).getLastD 0) / 2 := by
  refine ⟨rfl, ?_, ?_⟩
  · simp [read_klabels, processLines]
  · intro labels k0 rest
    simp [kPositionOf]

/-- C9: the ±50-row window around any valid sample index `i` is clipped to
the data bounds: `start = max(0, i-50)`, `end = min(n, i+50)`, the slice
has exactly `end - start` elements, and every element of the window is an
element of the data (no out-of-bounds access). -/
theorem window_clipping (kpts : List Rat) (i : Nat) (hi : i < kpts.length) :
    windowStart i ≤ i ∧
    i < windowEnd kpts.length i ∧
    windowEnd kpts.length i ≤ kpts.length ∧
    (sliceWindow kpts i).length = windowEnd kpts.length i - windowStart i ∧
    ∀ x ∈ sliceWindow kpts i, x ∈ kpts := by
  refine ⟨?_, ?_, ?_, ?_, ?_⟩
  · unfold windowStart; omega
  · unfold windowEnd; omega
  · unfold windowEnd; omega
  · simp only [sliceWindow, List.length_take, List.length_drop]
    unfold windowStart windowEnd; omega
  · intro x hx
    exact List.drop_subset _ _ (List.take_subset _ _ hx)

/-- Witness for C9 at `kpts = [1,2,3]`, `i = 1`. -/
theorem window_clipping_witness :
    windowStart 1 ≤ 1 ∧
    1 < windowEnd ([1, 2, 3] : List Rat).length 1 ∧
    windowEnd ([1, 2, 3] : List Rat).length 1 ≤ ([1, 2, 3] : List Rat).length ∧
    (sliceWindow ([1, 2, 3] : List Rat) 1).length =
      windowEnd ([1, 2, 3] : List Rat).length 1 - windowStart 1 ∧
    ∀ x ∈ sliceWindow ([1, 2, 3] : List Rat) 1, x ∈ ([1, 2, 3] : List Rat) :=
  window_clipping [1, 2, 3] 1 (by simp)

/-- C8: `extract_fermi_energy` realizes exactly the preference cascade of
the spec — direct float parse of the stripped content, else the first
numeric regex substring, else the float parse of the last line, else the
default `0.0` (also for a missing file) — and is total: no text content
makes it raise. -/
theorem fermi_energy_cascade :
    (∀ file, extract_fermi_energy file = fermiCascadeSpec file) ∧
    extract_fermi_energy none = 0 := by
  refine ⟨?_, rfl⟩
  intro file
  cases file with
  | none => rfl
  | some raw =>
    unfold extract_fermi_energy fermiCascadeSpec
    cases h1 : pyFloatCore (pyStripData raw.data) with
    | some v => simp [h1]
    | none =>
      cases h2 : firstNumericMatch (pyStripData raw.data) with
      | some m =>
        cases h3 : pyFloatCore m with
        | some v => simp [h1, h2, h3, Option.bind]
        | none =>
          simp only [h1, h2, h3, Option.some_bind]
          unfold fermiLastLineStage
          cases h4 : (pySplitlines (pyStripData raw.data)).getLast? with
          | some ll => cases h5 : pyFloatCore ll <;> simp [h4, h5]
          | none => simp [h4]
      | none =>
        simp only [h1, h2, Option.none_bind]
        unfold fermiLastLineStage
        cases h4 : (pySplitlines (pyStripData raw.data)).getLast? with
        | some ll => cases h5 : pyFloatCore ll <;> simp [h4, h5]
        | none => simp [h4]

/-- C6: a label-file line whose last whitespace token fails numeric parsing
is excluded from the output of `read_klabels` without any exception,
contributing neither a label nor a coordinate: removing it from the data
lines (first conjunct) or from the body of a file (second conjunct) leaves
the result unchanged. -/
theorem klabels_unparseable_line_excluded :
    (∀ (xs ys : List String) (l : String) (tok : List Char),
        (tokensData l.data).getLast? = some tok → pyFloatCore tok = none →
        processLines (xs ++ l :: ys) = processLines (xs ++ ys)) ∧
    (∀ (p0 p1 : String) (pre post : List String) (l : String) (tok : List Char),
        (tokensData l.data).getLast? = some tok → pyFloatCore tok = none →
        read_klabels (some (p0 :: p1 :: (pre ++ l :: post))) =
          read_klabels (some (p0 :: p1 :: (pre ++ post)))) := by
  constructor
  · intro xs ys l tok h1 h2
    exact processLines_middle (lineEntry_none_of_unparseable h1 h2) xs ys
  · intro p0 p1 pre post l tok h1 h2
    have hle : lineEntry l = none := lineEntry_none_of_unparseable h1 h2
    simp only [read_klabels, List.head?_cons]
    by_cases hm : hasHeaderMarker p0 <;>
      by_cases hb0 : isBlank p0 <;>
        by_cases hb1 : isBlank p1 <;>
          · simp [hm, hb0, hb1]
            first
            | exact processLines_middle hle (p0 :: p1 :: pre) post
            | exact processLines_middle hle (p1 :: pre) post
            | exact processLines_middle hle pre post

/-- Witness for C6: the line "X abc" (non-numeric coordinate) drops out. -/
theorem klabels_unparseable_line_excluded_witness :
    processLines (["A 1.0"] ++ "X abc" :: []) = processLines (["A 1.0"] ++ []) ∧
    read_klabels (some ("h" :: "g" :: (["A 1.0"] ++ "X abc" :: []))) =
      read_klabels (some ("h" :: "g" :: (["A 1.0"] ++ []))) :=
  ⟨klabels_unparseable_line_excluded.1 ["A 1.0"] [] "X abc" "abc".data
      (by decide) (by decide),
   klabels_unparseable_line_excluded.2 "h" "g" ["A 1.0"] [] "X abc" "abc".data
      (by decide) (by decide)⟩

/-- The first-hit characterization of the adjacent-difference scan. -/
theorem firstBelowIdx_eq_some_iff (l : List (EnergyVal × EnergyVal)) (i : Nat) :
    firstBelowIdx l = some i ↔
      ∃ p, l.get? i = some p ∧ encutDiffBelow p.1 p.2 = true ∧
        ∀ j, j < i → ∀ q, l.get? j = some q → encutDiffBelow q.1 q.2 = false := by
  induction l generalizing i with
  | nil => simp [firstBelowIdx]
  | cons p ps ih =>
    by_cases hb : encutDiffBelow p.1 p.2
    · simp only [firstBelowIdx, hb, if_true]
      cases i with
      | zero =>
        constructor
        · intro _
          exact ⟨p, rfl, hb, fun j hj q hq => absurd hj (Nat.not_lt_zero j)⟩
        · intro _; rfl
      | succ n =>
        constructor
        · intro h; exact absurd h (by simp)
        · rintro ⟨q, hq, _, hall⟩
          have h0 := hall 0 (Nat.succ_pos n) p rfl
          rw [h0] at hb
          exact absurd hb (by simp)
    · have hbf : encutDiffBelow p.1 p.2 = false := by
        exact Bool.not_eq_true _ ▸ (by simpa using hb)
      simp only [firstBelowIdx, hbf, Bool.false_eq_true, if_false]
      cases i with
      | zero =>
        rw [Option.map_eq_some']
        constructor
        · rintro ⟨i', _, hcontra⟩
          exact absurd hcontra (Nat.succ_ne_zero i')
        · rintro ⟨q, hq, hqb, _⟩
          have hqp : p = q := by
            simpa [List.get?_cons_zero] using hq
          rw [← hqp, hbf] at hqb
          exact absurd hqb (by simp)
      | succ n =>
        rw [Option.map_eq_some']
        constructor
        · rintro ⟨i', hi', heq⟩
          have hin : i' = n := by omega
          rw [hin] at hi'
          obtain ⟨q, hq, hqb, hall⟩ := (ih n).mp hi'
          refine ⟨q, by simpa [List.get?_cons_succ] using hq, hqb, ?_⟩
          intro j hj q' hq'
          cases j with
          | zero =>
            have hpq : p = q' := by simpa [List.get?_cons_zero] using hq'
            rw [← hpq]
            exact hbf
          | succ j' =>
            exact hall j' (by omega) q' (by simpa [List.get?_cons_succ] using hq')
        · rintro ⟨q, hq, hqb, hall⟩
          refine ⟨n, (ih n).mpr ⟨q, by simpa [List.get?_cons_succ] using hq, hqb, ?_⟩, rfl⟩
          intro j hj q' hq'
          exact hall (j + 1) (by omega) q' (by simpa [List.get?_cons_succ] using hq')

/-- C1: for the ENCUT sweep `[200, 250, 300]` with energies
`[-10.000, -10.0005, -10.0006]` and the 0.001 threshold, convergence is
declared at parameter 250; and in general the scan declares convergence at
the index one past the first adjacent absolute difference strictly below
0.001, scanning from the smallest parameter upward. -/
theorem encut_convergence_rule :
    convergedParameter [200, 250, 300]
        [EnergyVal.num (-10.000), EnergyVal.num (-10.0005), EnergyVal.num (-10.0006)] =
      some 250 ∧
    ∀ (es : List EnergyVal) (k : Nat),
      convergenceIndex es = some k ↔
        ∃ i, k = i + 1 ∧ ∃ p, (es.zip es.tail).get? i = some p ∧
          encutDiffBelow p.1 p.2 = true ∧
          ∀ j, j < i → ∀ q, (es.zip es.tail).get? j = some q →
            encutDiffBelow q.1 q.2 = false := by
  constructor
  · simp +decide [convergedParameter, convergenceIndex, firstBelowIdx, encutDiffBelow]
    norm_num [abs_of_nonneg, abs_of_nonpos]
  · intro es k
    rw [convergenceIndex, Option.map_eq_some']
    constructor
    · rintro ⟨i, hi, rfl⟩
      exact ⟨i, rfl, (firstBelowIdx_eq_some_iff _ i).mp hi⟩
    · rintro ⟨i, rfl, hex⟩
      exact ⟨i, (firstBelowIdx_eq_some_iff _ i).mpr hex, rfl⟩

/-- Witness for C1's scanning rule at a two-element energy list. -/
theorem encut_convergence_rule_witness :
    convergenceIndex [EnergyVal.num 1, EnergyVal.num 1] = some 1 :=
  (encut_convergence_rule.2 _ _).mpr
    ⟨0, rfl, (EnergyVal.num 1, EnergyVal.num 1), rfl,
     by norm_num [encutDiffBelow],
     fun j hj q hq => absurd hj (Nat.not_lt_zero j)⟩

/-- The two selected bands minimize absolute distance to the reference
energy 0 among all band indices of the row. -/
theorem diracBands_min (es : List Rat) :
    ∀ s ∈ diracBands es, ∀ b : Nat, b < es.length → b ∉ diracBands es →
      |es.getD s 0| ≤ |es.getD b 0| := by
  intro s hs b hb hbn
  haveI : IsTotal Nat (fun i j => |es.getD i 0| ≤ |es.getD j 0|) :=
    ⟨fun a b => le_total _ _⟩
  haveI : IsTrans Nat (fun i j => |es.getD i 0| ≤ |es.getD j 0|) :=
    ⟨fun a b c hab hbc => le_trans hab hbc⟩
  have hsorted :
      List.Sorted (fun i j => |es.getD i 0| ≤ |es.getD j 0|) (argsortAbs es) :=
    List.sorted_insertionSort _ _
  simp only [diracBands] at hs hbn
  have hmem : b ∈ argsortAbs es := by
    unfold argsortAbs
    rw [List.mem_insertionSort]
    exact List.mem_range.mpr hb
  have hb2 : b ∈ (argsortAbs es).take 2 ∨ b ∈ (argsortAbs es).drop 2 := by
    rw [← List.mem_append, List.take_append_drop]
    exact hmem
  cases hb2 with
  | inl h => exact absurd h hbn
  | inr h => exact hsorted.rel_of_mem_take_of_mem_drop hs h

/-- C4: the Dirac-cone selection picks the two bands whose energies at the
sample nearest the target are closest in absolute value to the reference
energy 0 (first conjunct); in particular, in a 5-sample, 3-band table
whose row at the nearest sample is `[1/2, 0, -3/10]` and whose other
entries all have absolute value above 0, band index 1 ("Band 2" in the
script's 1-based display), with value exactly 0, is among the two selected
bands (second conjunct). -/
theorem dirac_band_selection :
    (∀ (kpts : List Rat) (energies : List (List Rat)) (target : Rat) (row : List Rat),
        energies.getD (nearestIndex kpts target) [] = row →
        ∀ s ∈ diracBandsOf kpts energies target,
        ∀ b : Nat, b < row.length → b ∉ diracBandsOf kpts energies target →
          |row.getD s 0| ≤ |row.getD b 0|) ∧
    (1 : Nat) ∈ diracBandsOf [0, 1, 2, 3, 4]
        [[5, 4, 3], [5, 4, 3], [1/2, 0, -3/10], [5, 4, 3], [5, 4, 3]] 2 := by
  constructor
  · intro kpts energies target row hrow s hs b hb hbn
    simp only [diracBandsOf, hrow] at hs hbn
    exact diracBands_min row s hs b hb hbn
  · simp +decide [diracBandsOf, diracBands, argsortAbs, nearestIndex, nearestIndexAux,
      List.insertionSort, List.orderedInsert, List.range, List.range.loop]
    norm_num

/-- Witness for C4 at the concrete table: selected band 1 beats unselected
band 0. -/
theorem dirac_band_selection_witness :
    |(([[5, 4, 3], [5, 4, 3], [1/2, 0, -3/10], [5, 4, 3], [5, 4, 3]] : List (List Rat)).getD
        (nearestIndex [0, 1, 2, 3, 4] 2) []).getD 1 0| ≤
      |(([[5, 4, 3], [5, 4, 3], [1/2, 0, -3/10], [5, 4, 3], [5, 4, 3]] : List (List Rat)).getD
        (nearestIndex [0, 1, 2, 3, 4] 2) []).getD 0 0| :=
  dirac_band_selection.1 [0, 1, 2, 3, 4] _ 2 _ rfl 1 dirac_band_selection.2 0
    (by simp +decide [nearestIndex, nearestIndexAux]
        norm_num)
    (by simp +decide [diracBandsOf, diracBands, argsortAbs, nearestIndex, nearestIndexAux,
          List.insertionSort, List.orderedInsert, List.range, List.range.loop]
        norm_num [abs_of_nonneg, abs_of_nonpos])

/-- An iteration that raises terminates the whole ENCUT extraction loop. -/
theorem encutSweep_error_middle (pre : List (Option (List String)))
    (x : Option (List String)) (post : List (Option (List String)))
    (hx : encutStep x = Except.error ())
    (hpre : ∀ f ∈ pre, ∃ v, encutStep f = Except.ok v) :
    encutSweep (pre ++ x :: post) = Except.error () := by
  induction pre with
  | nil =>
    show (x :: post).mapM encutStep = Except.error ()
    rw [List.mapM_cons, hx]
    rfl
  | cons a pre' ih =>
    obtain ⟨v, hv⟩ := hpre a (List.mem_cons_self a pre')
    have ih2 : (pre' ++ x :: post).mapM encutStep = Except.error () :=
      ih (fun f hf => hpre f (List.mem_cons_of_mem a hf))
    show ((a :: pre') ++ x :: post).mapM encutStep = Except.error ()
    rw [List.cons_append, List.mapM_cons, hv]
    simp only [ih2]
    rfl

/-- C10: an existing OUTCAR without a TOTEN line makes
`extract_energy_from_outcar` return `None` rather than the NaN marker, and
`analyze_encut_convergence` then raises an unhandled `TypeError` when
formatting that energy, terminating the sweep — unlike a missing file,
which contributes NaN (third conjunct). -/
theorem encut_missing_toten_typeerror :
    (∀ lines : List String, (∀ l ∈ lines, containsSub l totenMarker = false) →
        extract_energy_from_outcar lines = Except.ok none) ∧
    (∀ (pre : List (Option (List String))) (lines : List String)
        (post : List (Option (List String))),
        (∀ l ∈ lines, containsSub l totenMarker = false) →
        (∀ f ∈ pre, ∃ v, encutStep f = Except.ok v) →
        encutSweep (pre ++ some lines :: post) = Except.error ()) ∧
    encutStep none = Except.ok EnergyVal.nan := by
  have hextract : ∀ lines : List String,
      (∀ l ∈ lines, containsSub l totenMarker = false) →
      extract_energy_from_outcar lines = Except.ok none := by
    intro lines h
    unfold extract_energy_from_outcar
    rw [List.find?_eq_none.mpr (fun x hx => by rw [h x hx]; exact Bool.false_ne_true)]
  refine ⟨hextract, ?_, rfl⟩
  intro pre lines post hno hpre
  have hstep : encutStep (some lines) = Except.error () := by
    simp only [encutStep, hextract lines hno]
    rfl
  exact encutSweep_error_middle pre (some lines) post hstep hpre

/-- Witness for C10 at a one-line marker-free OUTCAR. -/
theorem encut_missing_toten_typeerror_witness :
    extract_energy_from_outcar ["no marker line"] = Except.ok none ∧
    encutSweep ([none] ++ some ["no marker line"] :: [some []]) = Except.error () ∧
    encutStep none = Except.ok EnergyVal.nan :=
  ⟨encut_missing_toten_typeerror.1 ["no marker line"] (by decide),
   encut_missing_toten_typeerror.2.1 [none] ["no marker line"] [some []] (by decide)
     (by intro f hf
         rw [List.mem_singleton] at hf
         subst hf
         exact ⟨EnergyVal.nan, rfl⟩),
   encut_missing_toten_typeerror.2.2⟩

end VaspScripts
